import Mathlib

/-!
Verification development for the unallocated-cost distribution engine of the
fleet-prof-app repository (`src/modules/unalloc_distribution.py`).

The embedding models the pandas series/dataframe computations of the source
module over exact rationals (`ℚ`): a pandas `NaN`/`NaT` cell is `Option.none`,
a present value is `some q`.  Each definition carries a comment pointing to
the Python function it embeds.
-/

namespace UnallocDist

/-! ## Ratio engine: `_ratio` and `_sprinkle`

The numerator and denominator series for one cost category are aligned on the
list of basins (`basins = df_den["Basin"].unique()`).  A `BasinRow` is one
position of these aligned series. -/

/-- One aligned position of the per-basin series: the basin label, the
numerator value (`unalloc`) and the denominator value (`denom`). -/
structure BasinRow where
  basin : String
  unalloc : ℚ
  denom : ℚ
deriving DecidableEq

/-- Elementwise pandas division `unalloc / denom` under
`mode.use_inf_as_na = True`: `0/0` is `NaN` and `x/0` is `±Inf`, and both are
treated as NA (`none`); a nonzero denominator divides exactly. -/
def pdDivNA (a b : ℚ) : Option ℚ :=
  if b = 0 then none else some (a / b)

/-- Value of `_ratio(unalloc, denom)` at one row:
`(unalloc / denom).fillna(0)` (lines 470–473 of `unalloc_distribution.py`). -/
def baseRatioVal (r : BasinRow) : ℚ :=
  (pdDivNA r.unalloc r.denom).getD 0

/-- The full base-ratio series produced by `_ratio`, aligned with `rows`. -/
def ratioSeries (rows : List BasinRow) : List (String × ℚ) :=
  rows.map (fun r => (r.basin, baseRatioVal r))

/-- `zero_mask = (denom == 0) & (unalloc > 0)` of `_sprinkle` at one row. -/
def zeroMaskRow (r : BasinRow) : Bool :=
  decide (r.denom = 0 ∧ 0 < r.unalloc)

/-- `orphan_cost = unalloc[zero_mask].sum()` of `_sprinkle` (line 478). -/
def orphanCost (rows : List BasinRow) : ℚ :=
  ((rows.filter zeroMaskRow).map (fun r => r.unalloc)).sum

/-- `valid_mask = (denom > 0) & (base_ratio.index != "CA")` of `_sprinkle`
(line 479). -/
def validRow (r : BasinRow) : Bool :=
  decide (0 < r.denom ∧ r.basin ≠ "CA")

/-- `pool = denom[valid_mask].sum()` of `_sprinkle` (line 480). -/
def validPool (rows : List BasinRow) : ℚ :=
  ((rows.filter validRow).map (fun r => r.denom)).sum

/-- `orphan_ratio = orphan_cost / pool if pool else 0` of `_sprinkle`
(line 481): the Python truthiness test is `pool ≠ 0`. -/
def orphanRatio (rows : List BasinRow) : ℚ :=
  if validPool rows = 0 then 0 else orphanCost rows / validPool rows

/-- `final = base_ratio.copy(); final.loc[valid_mask] += orphan_ratio`
(lines 482–483), where `base_ratio = _ratio(unalloc, denom)` exactly as at
the call sites (lines 487–496): the final ratio series aligned with `rows`. -/
def sprinkleFinal (rows : List BasinRow) : List (String × ℚ) :=
  rows.map (fun r =>
    (r.basin, if validRow r then baseRatioVal r + orphanRatio rows else baseRatioVal r))

/-! Helper lemmas about the sprinkle components. -/

/-- Every denominator summed into the valid pool is positive. -/
theorem validPool_pos_of_mem {rows : List BasinRow} {r : BasinRow}
    (hr : r ∈ rows) (hv : validRow r = true) : 0 < validPool rows := by
  have hrf : r ∈ rows.filter validRow := List.mem_filter.mpr ⟨hr, hv⟩
  have hmem : r.denom ∈ (rows.filter validRow).map (fun r => r.denom) :=
    List.mem_map_of_mem _ hrf
  have hpos : ∀ x ∈ (rows.filter validRow).map (fun r => r.denom), 0 < x := by
    intro x hx
    rcases List.mem_map.mp hx with ⟨s, hs, rfl⟩
    have hvs : validRow s = true := (List.mem_filter.mp hs).2
    exact (of_decide_eq_true hvs).1
  have hne : (rows.filter validRow).map (fun r => r.denom) ≠ [] := by
    intro hnil
    rw [hnil] at hmem
    exact (List.not_mem_nil _) hmem
  exact List.sum_pos _ hpos hne

end UnallocDist

namespace UnallocDist

/-- C2: For every basin row, the base ratio produced by `_ratio` equals
`numerator / denominator` when the denominator is nonzero and `0` when the
denominator is zero; the result is a total rational value for every row
(never `NaN`/`Inf`), because the inf-as-NA division is explicitly filled
with `0`. -/
theorem ratio_guarded_division (rows : List BasinRow) :
    ratioSeries rows
      = rows.map (fun r => (r.basin, if r.denom = 0 then 0 else r.unalloc / r.denom)) := by
  unfold ratioSeries baseRatioVal pdDivNA
  refine List.map_congr_left ?_
  intro r _
  by_cases h : r.denom = 0 <;> simp [h]

/-- C1: Orphan sprinkling is a flat-rate addition: every valid basin row
(denominator positive, basin ≠ "CA") receives its base ratio plus
`orphanCost / validPool` — the orphan pool divided by the summed denominators
of the valid basins — and every non-valid row (including the excluded basin
"CA") keeps its base ratio unchanged in the final series. -/
theorem sprinkle_flat_rate (rows : List BasinRow) (r : BasinRow) (hr : r ∈ rows) :
    (validRow r = true →
      (r.basin, baseRatioVal r + orphanCost rows / validPool rows) ∈ sprinkleFinal rows)
    ∧ (validRow r = false →
      (r.basin, baseRatioVal r) ∈ sprinkleFinal rows) := by
  constructor
  · intro hv
    have hpool : validPool rows ≠ 0 := ne_of_gt (validPool_pos_of_mem hr hv)
    have hval : orphanRatio rows = orphanCost rows / validPool rows := by
      unfold orphanRatio
      simp [hpool]
    have : (r.basin, if validRow r then baseRatioVal r + orphanRatio rows
        else baseRatioVal r) ∈ sprinkleFinal rows := List.mem_map_of_mem _ hr
    rw [hv] at this
    simpa [hval] using this
  · intro hv
    have : (r.basin, if validRow r then baseRatioVal r + orphanRatio rows
        else baseRatioVal r) ∈ sprinkleFinal rows := List.mem_map_of_mem _ hr
    rw [hv] at this
    simpa using this

/-- Witness for C1, on the spec's own example: basins
`A (denom 0, numerator 100)`, `B (denom 50, numerator 10)` and the excluded
basin `CA (denom 50, numerator 20)`.  The orphan ratio is `100/50 = 2`,
basin `B` ends at `10/50 + 2` and `CA` keeps `20/50`. -/
theorem sprinkle_flat_rate_witness :
    (("B", (10 : ℚ)/50 + 100/50) ∈ sprinkleFinal
        [⟨"A", 100, 0⟩, ⟨"B", 10, 50⟩, ⟨"CA", 20, 50⟩])
    ∧ (("CA", (20 : ℚ)/50) ∈ sprinkleFinal
        [⟨"A", 100, 0⟩, ⟨"B", 10, 50⟩, ⟨"CA", 20, 50⟩]) := by
  have hvB : validRow ⟨"B", 10, 50⟩ = true := by
    unfold validRow
    rw [decide_eq_true_eq]
    exact ⟨by norm_num, by decide⟩
  have hvCA : validRow ⟨"CA", 20, 50⟩ = false := by
    unfold validRow
    rw [decide_eq_false_iff_not]
    simp
  have h1 := (sprinkle_flat_rate
      [⟨"A", 100, 0⟩, ⟨"B", 10, 50⟩, ⟨"CA", 20, 50⟩] ⟨"B", 10, 50⟩
      (List.mem_cons_of_mem _ (List.mem_cons_self _ _))).1 hvB
  have h2 := (sprinkle_flat_rate
      [⟨"A", 100, 0⟩, ⟨"B", 10, 50⟩, ⟨"CA", 20, 50⟩] ⟨"CA", 20, 50⟩
      (List.mem_cons_of_mem _ (List.mem_cons_of_mem _ (List.mem_cons_self _ _)))).2 hvCA
  constructor
  · have hval : baseRatioVal ⟨"B", 10, 50⟩ = (10 : ℚ)/50 := by
      norm_num [baseRatioVal, pdDivNA]
    have hoc : orphanCost [⟨"A", 100, 0⟩, ⟨"B", 10, 50⟩, ⟨"CA", 20, 50⟩]
        = (100 : ℚ) := by
      simp only [orphanCost, zeroMaskRow, List.filter_cons, List.filter_nil,
        decide_eq_true_eq]
      norm_num
    have hvp : validPool [⟨"A", 100, 0⟩, ⟨"B", 10, 50⟩, ⟨"CA", 20, 50⟩]
        = (50 : ℚ) := by
      have hBC : ("B" : String) ≠ "CA" := by decide
      simp only [validPool, validRow, List.filter_cons, List.filter_nil,
        decide_eq_true_eq]
      norm_num [hBC]
    rw [hval, hoc, hvp] at h1
    exact h1
  · have hval : baseRatioVal ⟨"CA", 20, 50⟩ = (20 : ℚ)/50 := by
      norm_num [baseRatioVal, pdDivNA]
    rw [hval] at h2
    exact h2

/-- C3: When every basin's denominator is zero for a category, every final
ratio is zero and no orphan redistribution occurs: the orphan ratio is zero,
so the orphan pool is added to no basin (the orphan cost is dropped). -/
theorem all_zero_denominator_drops_orphans (rows : List BasinRow)
    (h : ∀ r ∈ rows, r.denom = 0) :
    sprinkleFinal rows = rows.map (fun r => (r.basin, 0))
      ∧ orphanRatio rows = 0 := by
  have hvalid : ∀ r ∈ rows, validRow r = false := by
    intro r hr
    have hd := h r hr
    unfold validRow
    simp [hd]
  have hpool : validPool rows = 0 := by
    unfold validPool
    have : rows.filter validRow = [] := by
      rw [List.filter_eq_nil_iff]
      intro r hr
      simp [hvalid r hr]
    simp [this]
  constructor
  · unfold sprinkleFinal
    refine List.map_congr_left ?_
    intro r hr
    have hd := h r hr
    have hb : baseRatioVal r = 0 := by
      unfold baseRatioVal pdDivNA
      simp [hd]
    simp [hvalid r hr, hb]
  · unfold orphanRatio
    simp [hpool]

/-- Witness for C3: two basins, both with denominator 0, one carrying orphan
cost 100: all final ratios are 0 and the orphan ratio is 0. -/
theorem all_zero_denominator_drops_orphans_witness :
    sprinkleFinal [⟨"A", 100, 0⟩, ⟨"B", 0, 0⟩] = [("A", 0), ("B", 0)]
      ∧ orphanRatio [⟨"A", 100, 0⟩, ⟨"B", 0, 0⟩] = 0 := by
  have h := all_zero_denominator_drops_orphans
      [⟨"A", 100, 0⟩, ⟨"B", 0, 0⟩] (by intro r hr; fin_cases hr <;> rfl)
  exact ⟨by rw [h.1]; simp, h.2⟩

/-! ## Activity windows and pad-day computation

Timestamps are modelled as rational numbers of seconds; a pandas `NaT`
(missing or unparseable date, the output of `_coerce_excel_datetime` on bad
input) is `none`.  `monthStart` and `monthEnd` below are the midnight
timestamps `pd.Timestamp(month_start)` / `pd.Timestamp(month_end)`. -/

/-- `Series.clip(lower=lo)` on a timestamp cell: `NaT` stays `NaT`. -/
def clipLower (v : Option ℚ) (lo : ℚ) : Option ℚ :=
  v.map (fun x => max x lo)

/-- `Series.clip(upper=hi)` on a timestamp cell: `NaT` stays `NaT`. -/
def clipUpper (v : Option ℚ) (hi : ℚ) : Option ℚ :=
  v.map (fun x => min x hi)

/-- Timestamp subtraction: `NaT` on either side propagates to `NaT`. -/
def subNaT : Option ℚ → Option ℚ → Option ℚ
  | some a, some b => some (a - b)
  | _, _ => none

/-- The full-window fallback of `run_unalloc_distribution` (lines 373–374):
`mask = Pad Start isna & Pad End isna; df.loc[mask] = [ms, me]` — only when
*both* dates are missing are the report-window bounds assigned. -/
def fillBothMissing (s e : Option ℚ) (ms me : ℚ) : Option ℚ × Option ℚ :=
  if s.isNone ∧ e.isNone then (some ms, some me) else (s, e)

/-- The pad-day computation of `run_unalloc_distribution` (lines 377–384):
`start_clip = start.clip(lower=ms)`,
`end_clip = end.clip(upper=me + 1 day - 1 second)`,
`tdelta = (end_clip - start_clip).clip(lower=0)`,
`pad_days = tdelta.total_seconds().fillna(0) / 86400`. -/
def padDaysFrom (s e : Option ℚ) (ms me : ℚ) : ℚ :=
  let startClip := clipLower s ms
  let endClip := clipUpper e (me + 86400 - 1)
  let td := (subNaT endClip startClip).map (fun d => max d 0)
  td.getD 0 / 86400

/-- One row of the concatenated Main-Combo + Stragglers activity table, with
its coerced `Pad Start` / `Pad End` timestamps. -/
structure ActRecord where
  basin : String
  padStart : Option ℚ
  padEnd : Option ℚ

/-- `pad_days` of one activity record: the both-missing fallback (lines
373–374) followed by the clipped day count (lines 377–384). -/
def padDaysOfRecord (r : ActRecord) (ms me : ℚ) : ℚ :=
  let p := fillBothMissing r.padStart r.padEnd ms me
  padDaysFrom p.1 p.2 ms me

/-- `day_total = df_main.groupby("LBRT BASIN")["pad_days"].sum()` (line 437)
evaluated at one basin `b`. -/
def dayTotal (rs : List ActRecord) (b : String) (ms me : ℚ) : ℚ :=
  ((rs.filter (fun r => r.basin == b)).map (fun r => padDaysOfRecord r ms me)).sum

/-- Counterexample to C5: a record that starts one day before the report
window `[0, 2592000]` (a 31-day window, in seconds) and ends one day after
it yields `pad_days = 31 - 1/86400`, not exactly the 31 days in the window:
the upper clip is `month_end + 1 day - 1 second`, so one second is always
missing. -/
theorem active_days_clamp_not_exact :
    padDaysOfRecord ⟨"X", some (-86400), some 2764800⟩ 0 2592000 ≠ 31 := by
  have h : padDaysOfRecord ⟨"X", some (-86400), some 2764800⟩ 0 2592000
      = 31 - 1/86400 := by
    unfold padDaysOfRecord fillBothMissing padDaysFrom clipLower clipUpper subNaT
    norm_num
  rw [h]
  norm_num

/-- C5 as amended: `pad_days` for a record with both dates present equals
`max 0 (min end (me + 86399) - max start ms) / 86400` — the clamped overlap
with the window whose upper bound is `month_end + 1 day - 1 second`.  A
record spanning the whole window therefore yields
`(me - ms)/86400 + 1 - 1/86400` days (one second short of the inclusive
day count), and a record entirely outside the window yields `0`. -/
theorem active_days_clamp_amended (s e ms me : ℚ) :
    padDaysFrom (some s) (some e) ms me
        = max (min e (me + 86399) - max s ms) 0 / 86400
    ∧ (ms ≤ me → s ≤ ms → me + 86399 ≤ e →
        padDaysFrom (some s) (some e) ms me = (me - ms) / 86400 + 1 - 1/86400)
    ∧ (e ≤ ms ∨ me + 86399 ≤ s →
        padDaysFrom (some s) (some e) ms me = 0) := by
  have hbase : padDaysFrom (some s) (some e) ms me
      = max (min e (me + 86399) - max s ms) 0 / 86400 := by
    unfold padDaysFrom clipLower clipUpper subNaT
    have h1 : me + 86400 - 1 = me + 86399 := by ring
    norm_num [h1]
  refine ⟨hbase, ?_, ?_⟩
  · intro hw hs he
    rw [hbase]
    have h1 : max s ms = ms := max_eq_right hs
    have h2 : min e (me + 86399) = me + 86399 := min_eq_right he
    rw [h1, h2]
    have h3 : max (me + 86399 - ms) 0 = me + 86399 - ms :=
      max_eq_left (by linarith)
    rw [h3]
    ring
  · intro h
    rw [hbase]
    rcases h with h | h
    · have : min e (me + 86399) - max s ms ≤ 0 := by
        have h1 : min e (me + 86399) ≤ e := min_le_left _ _
        have h2 : ms ≤ max s ms := le_max_right _ _
        linarith
      rw [max_eq_right this]
      norm_num
    · have : min e (me + 86399) - max s ms ≤ 0 := by
        have h1 : min e (me + 86399) ≤ me + 86399 := min_le_right _ _
        have h2 : s ≤ max s ms := le_max_left _ _
        linarith
      rw [max_eq_right this]
      norm_num

/-- Witness for the amended C5, on the 31-day window `[0, 2592000]`: the
spanning record `[-86400, 2764800]` yields `2592000/86400 + 1 - 1/86400`
days, and the record `[-172800, -86400]` entirely before the window yields
`0` days. -/
theorem active_days_clamp_amended_witness :
    padDaysFrom (some (-86400)) (some 2764800) 0 2592000
        = (2592000 - 0) / 86400 + 1 - 1/86400
    ∧ padDaysFrom (some (-172800)) (some (-86400)) 0 2592000 = 0 := by
  constructor
  · exact (active_days_clamp_amended (-86400) 2764800 0 2592000).2.1
      (by norm_num) (by norm_num) (by norm_num)
  · exact (active_days_clamp_amended (-172800) (-86400) 0 2592000).2.2
      (Or.inl (by norm_num))

/-- C6: A record whose coerced `Pad Start` and `Pad End` are both missing is
assigned the report-window bounds (lines 373–374) and is not dropped: its
`pad_days` contribution is summed into its basin's `DayTotal` like any other
record's. -/
theorem both_missing_full_window (r : ActRecord) (ms me : ℚ)
    (pre post : List ActRecord) (b : String)
    (h1 : r.padStart = none) (h2 : r.padEnd = none) (hb : r.basin = b) :
    fillBothMissing r.padStart r.padEnd ms me = (some ms, some me)
    ∧ dayTotal (pre ++ r :: post) b ms me
        = dayTotal pre b ms me + padDaysOfRecord r ms me + dayTotal post b ms me := by
  constructor
  · unfold fillBothMissing
    simp [h1, h2]
  · unfold dayTotal
    have hrb : (r.basin == b) = true := by
      rw [hb]
      exact beq_self_eq_true b
    rw [List.filter_append, List.filter_cons, hrb]
    simp only [if_true]
    rw [List.map_append, List.map_cons, List.sum_append, List.sum_cons]
    ring

/-- Witness for C6: a record with both dates missing, between two other
records of the same basin on the 31-day window `[0, 2592000]`: the window
bounds are assigned and the basin day total sums all three records. -/
theorem both_missing_full_window_witness :
    fillBothMissing (ActRecord.mk "X" none none).padStart
        (ActRecord.mk "X" none none).padEnd 0 2592000 = (some 0, some 2592000)
    ∧ dayTotal [⟨"X", some 0, some 86400⟩, ⟨"X", none, none⟩,
          ⟨"X", some 86400, some 172800⟩] "X" 0 2592000
        = dayTotal [⟨"X", some 0, some 86400⟩] "X" 0 2592000
          + padDaysOfRecord ⟨"X", none, none⟩ 0 2592000
          + dayTotal [⟨"X", some 86400, some 172800⟩] "X" 0 2592000 := by
  exact both_missing_full_window ⟨"X", none, none⟩ 0 2592000
    [⟨"X", some 0, some 86400⟩] [⟨"X", some 86400, some 172800⟩] "X" rfl rfl rfl

/-- C10: The full-window fallback fires only when both dates are missing.
When exactly one of the coerced `Pad Start` / `Pad End` is missing (`NaT`),
the missing value propagates through the clips and subtraction, the day
count is filled with 0, and the record contributes nothing to its basin's
active-day total. -/
theorem one_missing_zero_days (r : ActRecord) (ms me : ℚ)
    (h : r.padStart.isNone ≠ r.padEnd.isNone) :
    padDaysOfRecord r ms me = 0 ∧ dayTotal [r] r.basin ms me = 0 := by
  have hpd : padDaysOfRecord r ms me = 0 := by
    unfold padDaysOfRecord fillBothMissing
    rcases hs : r.padStart with _ | s <;> rcases he : r.padEnd with _ | e
    · rw [hs, he] at h
      simp at h
    · rw [hs, he] at h
      simp only [Option.isNone_none, Option.isNone_some]
      norm_num
      unfold padDaysFrom clipLower clipUpper subNaT
      simp
    · rw [hs, he] at h
      simp only [Option.isNone_none, Option.isNone_some]
      norm_num
      unfold padDaysFrom clipLower clipUpper subNaT
      simp
    · rw [hs, he] at h
      simp at h
  refine ⟨hpd, ?_⟩
  unfold dayTotal
  rw [List.filter_cons]
  simp [hpd]

/-- Witness for C10: a record with a missing start date and a present end
date on the 31-day window `[0, 2592000]` yields 0 pad-days and contributes
0 to its basin's day total. -/
theorem one_missing_zero_days_witness :
    padDaysOfRecord ⟨"X", none, some 86400⟩ 0 2592000 = 0
    ∧ dayTotal [⟨"X", none, some 86400⟩] "X" 0 2592000 = 0 := by
  exact one_missing_zero_days ⟨"X", none, some 86400⟩ 0 2592000 (by simp)

/-! ## Spreadsheet cell values and numeric parsing

A spreadsheet cell is blank (`NaN`), a number, or a text value.  String
parsing models Python `float()` restricted to plain decimal literals with an
optional sign, optional fractional part and surrounding spaces (the grammar
the project-number and cost cells use). -/

/-- A raw spreadsheet cell value. -/
inductive Cell where
  | blank
  | num (q : ℚ)
  | str (s : String)
deriving DecidableEq

/-- Digits-to-number accumulator for a run of decimal digit characters. -/
def digitsToNat (l : List Char) : Nat :=
  l.foldl (fun a c => a * 10 + (c.toNat - 48)) 0

/-- Strip leading and trailing space characters (Python `float()` ignores
surrounding whitespace). -/
def trimSpaces (cs : List Char) : List Char :=
  ((cs.dropWhile (fun c => c == ' ')).reverse.dropWhile (fun c => c == ' ')).reverse

/-- Parse the unsigned body of a decimal literal: digits, optionally with a
single decimal point (`"12"`, `"12."`, `".5"`, `"12.5"`). -/
def parseBody (sg : ℚ) (body : List Char) : Option ℚ :=
  match body.dropWhile (fun c => !(c == '.')) with
  | [] =>
      if body.takeWhile (fun c => !(c == '.')) ≠ [] ∧
          (body.takeWhile (fun c => !(c == '.'))).all Char.isDigit then
        some (sg * (digitsToNat (body.takeWhile (fun c => !(c == '.'))) : ℚ))
      else none
  | _ :: fp =>
      if (body.takeWhile (fun c => !(c == '.'))).all Char.isDigit ∧
          fp.all Char.isDigit ∧
          (body.takeWhile (fun c => !(c == '.')) ≠ [] ∨ fp ≠ []) then
        some (sg * ((digitsToNat (body.takeWhile (fun c => !(c == '.'))) : ℚ)
          + (digitsToNat fp : ℚ) / (10 : ℚ) ^ fp.length))
      else none

/-- Parse a decimal literal from a character list (post-trim): an optional
leading sign followed by the digit body. -/
def parseDecimalChars : List Char → Option ℚ
  | '-' :: r => parseBody (-1) r
  | '+' :: r => parseBody 1 r
  | cs => parseBody 1 cs

/-- Python `float(s)` on the decimal-literal grammar: `none` models a raised
`ValueError`. -/
def parseDecimal (s : String) : Option ℚ :=
  parseDecimalChars (trimSpaces s.toList)

/-- Python `int()` truncation toward zero of a rational (`int(float(val))`):
for `q = num/den` in lowest terms this is T-division (rounding toward zero)
of `num` by `den`. -/
def truncToInt (q : ℚ) : ℤ :=
  Int.tdiv q.num (q.den : ℤ)

/-- `float(val)` applied to a cell, as in `_is_six_digit`
(`unalloc_distribution.py` lines 167–174): a blank cell was already caught
by `pd.isna`, a text cell goes through `float()`. -/
def cellToFloat : Cell → Option ℚ
  | Cell.blank => none
  | Cell.num q => some q
  | Cell.str s => parseDecimal s

/-- `_is_six_digit(val)` (lines 167–174): `pd.isna(val)` gives `False`;
otherwise `n = int(float(val))` and the result is `100000 <= n <= 999999`;
a `ValueError`/`TypeError` from the conversion gives `False`. -/
def isSixDigit (c : Cell) : Bool :=
  match cellToFloat c with
  | none => false
  | some q => decide (100000 ≤ truncToInt q ∧ truncToInt q ≤ 999999)

/-! ## Numerator build: `_read_pvm_adjustments` row filter and
`_step1_build_combined` -/

/-- One cost line after header normalisation: the project-number cell, the
basin key, and the canonical cost columns. -/
structure CostLine where
  projectNumber : Cell
  basin : String
  propCost : ℚ
  truckCost : ℚ
  chemCost : ℚ
  fuelCost : ℚ
  matCost : ℚ
  otherPadCost : ℚ
  allocVMCost : ℚ

/-- The row filter of `_read_pvm_adjustments` (line 176):
`df = df[~df["Project Number"].apply(_is_six_digit)]` — only rows whose
project number is *not* a numeric 6-digit code survive. -/
def readAdjustments (rows : List CostLine) : List CostLine :=
  rows.filter (fun r => !(isSixDigit r.projectNumber))

/-- The concatenation of `_step1_build_combined` (lines 327–332): the
P. VM – Unalloc rows, the filtered Adjustments rows, and the P. VM – Unass
rows, in that order; no project-number filter is applied to the Unalloc or
Unass rows. -/
def combinedNumeratorRows (unalloc adjust unass : List CostLine) : List CostLine :=
  unalloc ++ readAdjustments adjust ++ unass

/-- `groupby("LBRT BASIN")[col].sum()` of `_step1_build_combined` (lines
339–346), evaluated for one basin `b` and one cost column `f`. -/
def basinCostSum (rows : List CostLine) (f : CostLine → ℚ) (b : String) : ℚ :=
  ((rows.filter (fun r => r.basin == b)).map f).sum

/-- The `Prop Cost` numerator for basin `b` built from the three raw
sources. -/
def propCostNumerator (unalloc adjust unass : List CostLine) (b : String) : ℚ :=
  basinCostSum (combinedNumeratorRows unalloc adjust unass) (fun r => r.propCost) b

/-- Unfolding `isSixDigit` on a cell whose `float()` conversion succeeds. -/
theorem isSixDigit_of_cellToFloat {c : Cell} {q : ℚ} (h : cellToFloat c = some q) :
    isSixDigit c = decide (100000 ≤ truncToInt q ∧ truncToInt q ≤ 999999) := by
  unfold isSixDigit
  rw [h]

/-- `_is_six_digit` accepts the string `"123456"`. -/
theorem isSixDigit_eval_123456 : isSixDigit (Cell.str "123456") = true := by
  have hp : cellToFloat (Cell.str "123456")
      = some ((1 : ℚ) * ((digitsToNat ['1', '2', '3', '4', '5', '6'] : ℕ) : ℚ)) := rfl
  have hd : digitsToNat ['1', '2', '3', '4', '5', '6'] = 123456 := rfl
  rw [hd] at hp
  rw [isSixDigit_of_cellToFloat hp]
  have ht : truncToInt ((1 : ℚ) * ((123456 : ℕ) : ℚ)) = 123456 := by
    unfold truncToInt
    norm_num
  rw [ht, decide_eq_true_eq]
  exact ⟨by norm_num, by norm_num⟩

/-- `_is_six_digit` rejects the string `"12345"` (five digits). -/
theorem isSixDigit_eval_12345 : isSixDigit (Cell.str "12345") = false := by
  have hp : cellToFloat (Cell.str "12345")
      = some ((1 : ℚ) * ((digitsToNat ['1', '2', '3', '4', '5'] : ℕ) : ℚ)) := rfl
  have hd : digitsToNat ['1', '2', '3', '4', '5'] = 12345 := rfl
  rw [hd] at hp
  rw [isSixDigit_of_cellToFloat hp]
  have ht : truncToInt ((1 : ℚ) * ((12345 : ℕ) : ℚ)) = 12345 := by
    unfold truncToInt
    norm_num
  rw [ht, decide_eq_false_iff_not]
  intro hcon
  have := hcon.1
  norm_num at this

/-- Counterexample to C4: a line with the 6-digit project number `"123456"`
arriving through the P. VM – Unalloc source *is* included in the numerator
(`_step1_build_combined` applies no project-number filter to that source),
so the 6-digit exclusion does not hold for every unallocated-cost source. -/
theorem six_digit_line_from_unalloc_included :
    propCostNumerator [⟨Cell.str "123456", "X", 5, 0, 0, 0, 0, 0, 0⟩] [] [] "X" ≠ 0 := by
  have h : propCostNumerator [⟨Cell.str "123456", "X", 5, 0, 0, 0, 0, 0, 0⟩] [] [] "X"
      = 5 := by
    unfold propCostNumerator combinedNumeratorRows readAdjustments basinCostSum
    simp
  rw [h]
  norm_num

/-- C4 as amended: the strict-6-digit exclusion is applied only to the
Adjustments source: a line survives `_read_pvm_adjustments` iff its project
number is not a numeric 6-digit code (`"123456"` excluded; `""`, `"ABC"`
and `"12345"` included), while the combined numerator simply concatenates
the Unalloc and Unass rows unfiltered around the filtered Adjustments
rows. -/
theorem numerator_filter_amended (rows : List CostLine) (r : CostLine)
    (u a n : List CostLine) :
    (r ∈ readAdjustments rows ↔ r ∈ rows ∧ isSixDigit r.projectNumber = false)
    ∧ combinedNumeratorRows u a n = u ++ readAdjustments a ++ n
    ∧ isSixDigit (Cell.str "123456") = true
    ∧ isSixDigit (Cell.str "") = false
    ∧ isSixDigit (Cell.str "ABC") = false
    ∧ isSixDigit (Cell.str "12345") = false := by
  refine ⟨?_, rfl, isSixDigit_eval_123456, rfl, rfl, isSixDigit_eval_12345⟩
  unfold readAdjustments
  rw [List.mem_filter]
  constructor
  · rintro ⟨hm, hf⟩
    exact ⟨hm, by simpa using hf⟩
  · rintro ⟨hm, hf⟩
    exact ⟨hm, by simp [hf]⟩

/-! ## Pad-level allocator (STEP 4, lines 522–526)

`df_out[col] = driver * df_out["LBRT BASIN"].map(final_series)`: a pandas
`Series.map` miss yields `NaN`, and multiplying by `NaN` yields `NaN`, so an
allocated cell is `Option ℚ` (`none` = `NaN`). -/

/-- One Main-Combo output row with its driver values: `Prop TN`,
`Chem Cost` (joined from P. VM – Current) and `pad_days`. -/
structure MainRow where
  basin : String
  propTN : ℚ
  chemCost : ℚ
  padDays : ℚ

/-- `df["LBRT BASIN"].map(series)` at one row: look the basin up in the
ratio series; a missing key yields `NaN` (`none`). -/
def seriesGet (series : List (String × ℚ)) (b : String) : Option ℚ :=
  (series.find? (fun p => p.1 == b)).map (fun p => p.2)

/-- Multiplication of a present driver value by a possibly-`NaN` ratio:
`NaN` propagates. -/
def mulNaN (x : ℚ) (y : Option ℚ) : Option ℚ :=
  y.map (fun q => x * q)

/-- `Unalloc_Sand = Prop TN * map(final_sand)` (line 523). -/
def unallocSand (r : MainRow) (finalSand : List (String × ℚ)) : Option ℚ :=
  mulNaN r.propTN (seriesGet finalSand r.basin)

/-- `Unalloc_Handle = Prop TN * map(final_handle)` (line 524). -/
def unallocHandle (r : MainRow) (finalHandle : List (String × ℚ)) : Option ℚ :=
  mulNaN r.propTN (seriesGet finalHandle r.basin)

/-- `Unalloc_Chem = Chem Cost * map(final_chem)` (line 525). -/
def unallocChem (r : MainRow) (finalChem : List (String × ℚ)) : Option ℚ :=
  mulNaN r.chemCost (seriesGet finalChem r.basin)

/-- `Unalloc_Daily = pad_days * map(final_daily)` (line 526). -/
def unallocDaily (r : MainRow) (finalDaily : List (String × ℚ)) : Option ℚ :=
  mulNaN r.padDays (seriesGet finalDaily r.basin)

/-- Counterexample to C7: a record whose basin `"ZZ"` has no entry in the
final ratio series receives `NaN` (`none`) for the allocated column, not 0:
`Series.map` misses produce `NaN` and the multiplication propagates it. -/
theorem missing_basin_allocates_nan :
    unallocSand ⟨"ZZ", 5, 7, 3⟩ [("B", 2)] ≠ some 0 := by
  have h : unallocSand ⟨"ZZ", 5, 7, 3⟩ [("B", 2)] = none := rfl
  rw [h]
  intro hcon
  exact Option.noConfusion hcon

/-- C7 as amended: each allocated column is the record's driver value
(tonnage, tonnage, chemical cost, active days) times the final ratio of the
record's basin when that basin has an entry in the ratio series; a record
whose basin has no entry receives `NaN` (a missing value) for every
allocated column — never an error, but not 0. -/
theorem pad_level_allocation_amended (r : MainRow)
    (fs fh fc fd : List (String × ℚ)) :
    (∀ q, seriesGet fs r.basin = some q → unallocSand r fs = some (r.propTN * q))
    ∧ (∀ q, seriesGet fh r.basin = some q → unallocHandle r fh = some (r.propTN * q))
    ∧ (∀ q, seriesGet fc r.basin = some q → unallocChem r fc = some (r.chemCost * q))
    ∧ (∀ q, seriesGet fd r.basin = some q → unallocDaily r fd = some (r.padDays * q))
    ∧ (seriesGet fs r.basin = none → unallocSand r fs = none)
    ∧ (seriesGet fh r.basin = none → unallocHandle r fh = none)
    ∧ (seriesGet fc r.basin = none → unallocChem r fc = none)
    ∧ (seriesGet fd r.basin = none → unallocDaily r fd = none) := by
  refine ⟨fun q hq => ?_, fun q hq => ?_, fun q hq => ?_, fun q hq => ?_,
    fun hn => ?_, fun hn => ?_, fun hn => ?_, fun hn => ?_⟩
  · unfold unallocSand mulNaN
    rw [hq, Option.map_some']
  · unfold unallocHandle mulNaN
    rw [hq, Option.map_some']
  · unfold unallocChem mulNaN
    rw [hq, Option.map_some']
  · unfold unallocDaily mulNaN
    rw [hq, Option.map_some']
  · unfold unallocSand mulNaN
    rw [hn, Option.map_none']
  · unfold unallocHandle mulNaN
    rw [hn, Option.map_none']
  · unfold unallocChem mulNaN
    rw [hn, Option.map_none']
  · unfold unallocDaily mulNaN
    rw [hn, Option.map_none']

/-- Witness for the amended C7: basin `"B"` has ratio 2 in the sand series,
so the record with `Prop TN = 5` gets `Unalloc_Sand = 10`; basin `"ZZ"` is
absent from the daily series, so that record's `Unalloc_Daily` is `NaN`. -/
theorem pad_level_allocation_amended_witness :
    unallocSand ⟨"B", 5, 7, 3⟩ [("B", 2)] = some 10
    ∧ unallocDaily ⟨"ZZ", 5, 7, 3⟩ [("B", 2)] = none := by
  constructor
  · have h := (pad_level_allocation_amended ⟨"B", 5, 7, 3⟩ [("B", 2)] [] [] []).1
      2 rfl
    rw [h]
    norm_num
  · exact (pad_level_allocation_amended ⟨"ZZ", 5, 7, 3⟩ [] [] [] [("B", 2)]).2.2.2.2.2.2.2
      rfl

/-! ## Fatal-error atomicity (`_find_sheet_name` and the column guard)

The workbook-mutating effects of `run_unalloc_distribution` — deleting and
creating the `Unalloc_Distribution` sheet (lines 531–533) and saving the
workbook (line 576) — all happen after every sheet lookup (lines 297–300)
and after the `'Avg. Client Provided'` guard (lines 421–426).  The run is
modelled as the ordered trace of those effects together with its
`Except`-style outcome. -/

/-- A workbook-mutating effect, in execution order. -/
inductive WEvent where
  | deleteSheet (name : String)
  | createSheet (name : String)
  | saveWorkbook
deriving DecidableEq

/-- Case-insensitive substring test (`k.lower() in name.lower()`). -/
def containsLowered (name kw : String) : Bool :=
  (List.range (name.toLower.length + 1)).any
    (fun i => kw.toLower.isPrefixOf (name.toLower.drop i))

/-- The error message of `_find_sheet_name` (line 104), rendering the
keyword list the way Python `repr` does. -/
def sheetErrMsg (kws : List String) : String :=
  "No sheet name contains keywords: [" ++
    String.intercalate ", " (kws.map (fun k => "'" ++ k ++ "'")) ++ "]"

/-- `_find_sheet_name(wb, keywords)` (lines 98–104): the first sheet whose
lowered name contains every keyword, else a `KeyError` naming the
keywords. -/
def findSheetName (sheets : List String) (kws : List String) : Except String String :=
  match sheets.find? (fun n => kws.all (fun k => containsLowered n k)) with
  | some n => Except.ok n
  | none => Except.error (sheetErrMsg kws)

/-- The `KeyError` message of the `'Avg. Client Provided'` guard
(lines 422–426). -/
def avgClientErrMsg : String :=
  "Column 'Avg. Client Provided' is missing in Main-Combo; " ++
    "can't compute PropTotal = Prop TN × Avg. Client Provided."

/-- The observable workbook state: the sheet names present and the columns
of the Main-Combo table read from it. -/
structure WbEnv where
  sheetnames : List String
  mainCols : List String

/-- The workbook-mutation trace of the write phase (lines 531–576): delete
a pre-existing `Unalloc_Distribution` sheet, create it afresh, save. -/
def writeTrace (sheets : List String) : List WEvent :=
  (if "Unalloc_Distribution" ∈ sheets then
      [WEvent.deleteSheet "Unalloc_Distribution"] else [])
    ++ [WEvent.createSheet "Unalloc_Distribution", WEvent.saveWorkbook]

/-- The effect skeleton of `run_unalloc_distribution`: locate the four
P. VM sheets (lines 297–300), check the `'Avg. Client Provided'` column
(lines 421–426), and only then delete/create the output sheet and save
(lines 531–576).  Returns the emitted workbook-mutation trace and the
outcome. -/
def runUnalloc (env : WbEnv) : List WEvent × Except String Unit :=
  match findSheetName env.sheetnames ["p. vm", "unalloc"] with
  | Except.error e => ([], Except.error e)
  | Except.ok _ =>
    match findSheetName env.sheetnames ["p. vm", "current"] with
    | Except.error e => ([], Except.error e)
    | Except.ok _ =>
      match findSheetName env.sheetnames ["p. vm", "adjust"] with
      | Except.error e => ([], Except.error e)
      | Except.ok _ =>
        match findSheetName env.sheetnames ["p. vm", "unass"] with
        | Except.error e => ([], Except.error e)
        | Except.ok _ =>
          if "Avg. Client Provided" ∈ env.mainCols then
            (writeTrace env.sheetnames, Except.ok ())
          else ([], Except.error avgClientErrMsg)

/-- A failing `_find_sheet_name` call reports exactly the keyword-naming
`KeyError` message. -/
theorem findSheetName_error {sheets kws : List String} {e : String}
    (h : findSheetName sheets kws = Except.error e) : e = sheetErrMsg kws := by
  unfold findSheetName at h
  cases hf : sheets.find? (fun n => kws.all (fun k => containsLowered n k)) with
  | none =>
    rw [hf] at h
    injection h with h
    exact h.symm
  | some v =>
    rw [hf] at h
    exact Except.noConfusion h

/-- C8: Fatal errors are atomic with respect to output: whenever the run
fails — a sheet lookup misses or the `'Avg. Client Provided'` column is
absent — the workbook-mutation trace is empty (no output sheet is deleted
or created and the workbook is never saved), and the error message names
the missing sheet keywords or the missing column. -/
theorem fatal_errors_atomic (env : WbEnv) (evts : List WEvent) (e : String)
    (h : runUnalloc env = (evts, Except.error e)) :
    evts = []
    ∧ (e = sheetErrMsg ["p. vm", "unalloc"] ∨ e = sheetErrMsg ["p. vm", "current"]
        ∨ e = sheetErrMsg ["p. vm", "adjust"] ∨ e = sheetErrMsg ["p. vm", "unass"]
        ∨ e = avgClientErrMsg) := by
  unfold runUnalloc at h
  split at h
  next e1 heq =>
    injection h with ha hb
    injection hb with hbe
    exact ⟨ha.symm, Or.inl (hbe.symm.trans (findSheetName_error heq))⟩
  next s1 heq1 =>
    split at h
    next e2 heq =>
      injection h with ha hb
      injection hb with hbe
      exact ⟨ha.symm, Or.inr (Or.inl (hbe.symm.trans (findSheetName_error heq)))⟩
    next s2 heq2 =>
      split at h
      next e3 heq =>
        injection h with ha hb
        injection hb with hbe
        exact ⟨ha.symm, Or.inr (Or.inr (Or.inl (hbe.symm.trans (findSheetName_error heq))))⟩
      next s3 heq3 =>
        split at h
        next e4 heq =>
          injection h with ha hb
          injection hb with hbe
          exact ⟨ha.symm,
            Or.inr (Or.inr (Or.inr (Or.inl (hbe.symm.trans (findSheetName_error heq)))))⟩
        next s4 heq4 =>
          split at h
          · injection h with ha hb
            exact Except.noConfusion hb
          · injection h with ha hb
            injection hb with hbe
            exact ⟨ha.symm, Or.inr (Or.inr (Or.inr (Or.inr hbe.symm)))⟩

/-- Witness for C8: on a workbook with no sheets and no Main-Combo columns,
the run fails on the first sheet lookup, the mutation trace is empty, and
the error names the missing sheet's keywords. -/
theorem fatal_errors_atomic_witness :
    (runUnalloc ⟨[], []⟩).1 = []
    ∧ ((runUnalloc ⟨[], []⟩).2 = Except.error (sheetErrMsg ["p. vm", "unalloc"])) := by
  have h := fatal_errors_atomic ⟨[], []⟩ []
    (sheetErrMsg ["p. vm", "unalloc"]) rfl
  exact ⟨h.1, rfl⟩

/-! ## Currency coercion

`pd.to_numeric(errors="coerce").fillna(0)` is the chem-cost cleaning of
`run_unalloc_distribution` (lines 404–407).  "Parsing as currency" is the
repository's own money cleaner (`project_vm_adjustment.py` lines 128–134):
remove `,` and `$` characters, rewrite the parenthesis-negative notation
`(x)` to `-x`, then parse numerically. -/

/-- `_MONEY_RE = re.compile(r"[,$]")` applied with `.str.replace(_, "")`:
drop every comma and dollar sign. -/
def stripMoneyChars (cs : List Char) : List Char :=
  cs.filter (fun ch => !(ch == ',') && !(ch == '$'))

/-- `.str.replace(r"\((.*)\)", r"-\1")`: the greedy regex matches from the
first `(` to the last `)` after it (when both exist) and replaces that span
with `-` followed by its interior; otherwise the string is unchanged. -/
def parenToNeg (cs : List Char) : List Char :=
  match cs.dropWhile (fun c => !(c == '(')) with
  | [] => cs
  | _ :: afterParen =>
    match afterParen.reverse.dropWhile (fun c => !(c == ')')) with
    | [] => cs
    | _ :: innerRev =>
        cs.takeWhile (fun c => !(c == '(')) ++ '-' :: innerRev.reverse
          ++ (afterParen.reverse.takeWhile (fun c => !(c == ')'))).reverse

/-- Parsing a cell as currency: the money cleaner of
`project_vm_adjustment.py` (lines 128–134) followed by numeric parsing.
`none` means the value cannot be parsed as currency. -/
def parseMoney : Cell → Option ℚ
  | Cell.blank => none
  | Cell.num q => some q
  | Cell.str s => parseDecimalChars (trimSpaces (parenToNeg (stripMoneyChars s.toList)))

/-- `pd.to_numeric(val, errors=...)`: with `coerceErrors = true`
(`errors="coerce"`) an unparseable value becomes `NaN`; with
`errors="raise"` it raises. -/
def toNumeric (coerceErrors : Bool) (c : Cell) : Except String (Option ℚ) :=
  match c with
  | Cell.blank => Except.ok none
  | Cell.num q => Except.ok (some q)
  | Cell.str s =>
      match parseDecimal s with
      | some q => Except.ok (some q)
      | none =>
          if coerceErrors then Except.ok none
          else Except.error ("Unable to parse string " ++ s)

/-- The chem-cost cleaning of `run_unalloc_distribution` (lines 404–407):
`pd.to_numeric(df["Chem Cost"], errors="coerce").fillna(0)` at one cell. -/
def chemCostClean (c : Cell) : ℚ :=
  match toNumeric true c with
  | Except.ok v => v.getD 0
  | Except.error _ => 0

/-- A non-space character survives the surrounding-space trim. -/
theorem mem_dropSpaces {ch : Char} {l : List Char}
    (h : ch ∈ l) (hs : ch ≠ ' ') : ch ∈ l.dropWhile (fun c => c == ' ') := by
  induction l with
  | nil => exact absurd h (List.not_mem_nil ch)
  | cons a t ih =>
    by_cases ha : a = ' '
    · rw [List.dropWhile_cons_of_pos (by simp [ha])]
      rcases List.mem_cons.mp h with rfl | hmem
      · exact absurd ha hs
      · exact ih hmem
    · rw [List.dropWhile_cons_of_neg (by simp [ha])]
      exact h

/-- A non-space character of `cs` is a character of `trimSpaces cs`. -/
theorem mem_trimSpaces {ch : Char} {cs : List Char}
    (h : ch ∈ cs) (hs : ch ≠ ' ') : ch ∈ trimSpaces cs := by
  unfold trimSpaces
  rw [List.mem_reverse]
  exact mem_dropSpaces (List.mem_reverse.mpr (mem_dropSpaces h hs)) hs

/-- Every character of a body accepted by `parseBody` is a digit or the
decimal point. -/
theorem parseBody_chars {sg q : ℚ} {body : List Char}
    (h : parseBody sg body = some q) :
    ∀ ch ∈ body, ch = '.' ∨ ch.isDigit = true := by
  intro ch hch
  unfold parseBody at h
  split at h
  next heq =>
    split_ifs at h with hcond
    · have hbody : body.takeWhile (fun c => !(c == '.')) = body := by
        have ht := List.takeWhile_append_dropWhile (fun c => !(c == '.')) body
        rw [heq, List.append_nil] at ht
        exact ht
      exact Or.inr (List.all_eq_true.mp hcond.2 ch (by rw [hbody]; exact hch))
  next r0 fp heq =>
    split_ifs at h with hcond
    · have hr0 : r0 = '.' := by
        have hh := List.head?_dropWhile_not (fun c => !(c == '.')) body
        rw [heq] at hh
        simp at hh
        exact hh
      have hsplit : body.takeWhile (fun c => !(c == '.')) ++ r0 :: fp = body :=
        heq ▸ List.takeWhile_append_dropWhile (fun c => !(c == '.')) body
      rw [← hsplit] at hch
      rcases List.mem_append.mp hch with hip | hrf
      · exact Or.inr (List.all_eq_true.mp hcond.1 ch hip)
      · rcases List.mem_cons.mp hrf with rfl | hfp
        · exact Or.inl hr0
        · exact Or.inr (List.all_eq_true.mp hcond.2.1 ch hfp)

/-- Every character of a list accepted by `parseDecimalChars` is a sign, a
digit, or the decimal point. -/
theorem parseDecimalChars_chars {q : ℚ} {l : List Char}
    (h : parseDecimalChars l = some q) :
    ∀ ch ∈ l, ch = '-' ∨ ch = '+' ∨ ch = '.' ∨ ch.isDigit = true := by
  intro ch hch
  unfold parseDecimalChars at h
  split at h
  · rcases List.mem_cons.mp hch with rfl | hr
    · exact Or.inl rfl
    · rcases parseBody_chars h ch hr with h1 | h1
      · exact Or.inr (Or.inr (Or.inl h1))
      · exact Or.inr (Or.inr (Or.inr h1))
  · rcases List.mem_cons.mp hch with rfl | hr
    · exact Or.inr (Or.inl rfl)
    · rcases parseBody_chars h ch hr with h1 | h1
      · exact Or.inr (Or.inr (Or.inl h1))
      · exact Or.inr (Or.inr (Or.inr h1))
  · rcases parseBody_chars h ch hch with h1 | h1
    · exact Or.inr (Or.inr (Or.inl h1))
    · exact Or.inr (Or.inr (Or.inr h1))


/-- A string that already parses as a plain decimal is untouched by the
money cleaner, so it parses as currency with the same value. -/
theorem parseDecimal_money_agree {s : String} {q : ℚ}
    (h : parseDecimal s = some q) : parseMoney (Cell.str s) = some q := by
  have hchars := parseDecimalChars_chars (l := trimSpaces s.toList) h
  have hcs : ∀ ch ∈ s.toList, ch ≠ ',' ∧ ch ≠ '$' ∧ ch ≠ '(' := by
    intro ch hch
    by_cases hsp : ch = ' '
    · subst hsp
      exact ⟨by decide, by decide, by decide⟩
    · rcases hchars ch (mem_trimSpaces hch hsp) with rfl | rfl | rfl | hd
      · exact ⟨by decide, by decide, by decide⟩
      · exact ⟨by decide, by decide, by decide⟩
      · exact ⟨by decide, by decide, by decide⟩
      · refine ⟨?_, ?_, ?_⟩ <;> intro hcon <;> rw [hcon] at hd <;>
          exact absurd hd (by decide)
  have hstrip : stripMoneyChars s.toList = s.toList := by
    unfold stripMoneyChars
    rw [List.filter_eq_self]
    intro a ha
    have := hcs a ha
    simp [this.1, this.2.1]
  have hparen : parenToNeg s.toList = s.toList := by
    have hdw : s.toList.dropWhile (fun c => !(c == '(')) = [] := by
      rw [List.dropWhile_eq_nil_iff]
      intro x hx
      simp [(hcs x hx).2.2]
    unfold parenToNeg
    rw [hdw]
  have hpm : parseMoney (Cell.str s)
      = parseDecimalChars (trimSpaces s.toList) := by
    show parseDecimalChars (trimSpaces (parenToNeg (stripMoneyChars s.toList)))
        = parseDecimalChars (trimSpaces s.toList)
    rw [hstrip, hparen]
  rw [hpm]
  exact h

/-- C9: Every cost cell that cannot be parsed as currency — even after the
repository's own stripping of currency symbols and parenthesis-negative
notation — is treated as 0 by the chem-cost coercion, and the coercion
(`pd.to_numeric` with `errors="coerce"`) never raises. -/
theorem unparseable_currency_is_zero (c : Cell) (h : parseMoney c = none) :
    chemCostClean c = 0 ∧ ∃ v, toNumeric true c = Except.ok v := by
  cases c with
  | blank => exact ⟨rfl, ⟨none, rfl⟩⟩
  | num q => exact absurd h (by simp [parseMoney])
  | str s =>
    have hpd : parseDecimal s = none := by
      cases hq : parseDecimal s with
      | none => rfl
      | some q => exact absurd h (by rw [parseDecimal_money_agree hq]; simp)
    constructor
    · simp only [chemCostClean, toNumeric, hpd]
      rfl
    · refine ⟨none, ?_⟩
      simp only [toNumeric, hpd]
      rfl

/-- Witness for C9: the cell `"ABC"` cannot be parsed as currency; its
cleaned chem cost is 0 and the coercion returns a value instead of
raising. -/
theorem unparseable_currency_is_zero_witness :
    chemCostClean (Cell.str "ABC") = 0
    ∧ ∃ v, toNumeric true (Cell.str "ABC") = Except.ok v :=
  unparseable_currency_is_zero (Cell.str "ABC") rfl

end UnallocDist
